import Mathlib

/-!
# Verification of the neoshell image codec and sandbox launcher

Shallow embedding of the neoshell container tool:

* `lib/image.js` — the `.nsi` image codec (`createNsiImage`, `readNsiImage`,
  `extractNsiPayload`);
* `src/container_launcher.cpp` — the two C++ launchers (the legacy
  `container_launcher` and the `nsi-sandbox` binary whose source is the
  `main.cpp` section of the same file);
* the CLI `run` command (header read, hash verification, payload
  extraction, sandbox spawn).

Files are byte lists (`List Nat`, each entry one byte).  Machine integers
are `Nat` with explicit `% 256` / big-endian arithmetic where the source
reads or writes 32-bit fields.
-/

namespace Neoshell

/-- The 4 magic bytes `N`,`S`,`I`,`!` (`MAGIC_BYTES` in lib/image.js). -/
def MAGIC : List Nat := [78, 83, 73, 33]

/-- Format version constant (`VERSION = 1` in lib/image.js). -/
def VERSION : Nat := 1

/-- `Buffer.writeUInt32BE`: the four big-endian bytes of `n` (defined for
`n < 2^32`; larger values are reduced byte-wise as the buffer would hold). -/
def be32enc (n : Nat) : List Nat :=
  [n / 16777216 % 256, n / 65536 % 256, n / 256 % 256, n % 256]

/-- `Buffer.readUInt32BE` over an explicit 4-byte slice. -/
def be32dec (l : List Nat) : Nat :=
  l.foldl (fun a c => a * 256 + c) 0

/-- `buffer.readUInt32BE(i)`: decode 4 bytes at offset `i`. -/
def readU32BE (b : List Nat) (i : Nat) : Nat :=
  be32dec ((b.drop i).take 4)

/-! ## JSON validity (model of `JSON.parse` succeeding)

`readNsiImage` calls `JSON.parse` on the UTF-8 decoding of the header
bytes and treats a parse exception as a format error.  We model the
*success* of `JSON.parse` by a recursive-descent validator over the raw
bytes, faithful to the JSON grammar for ASCII input (bytes ≥ 0x80 are
treated as ordinary string characters, as a UTF-8 decode would yield
non-control characters for them). -/

/-- JSON insignificant whitespace: space, tab, line feed, carriage return. -/
def jsonWs (c : Nat) : Bool :=
  c = 32 || c = 9 || c = 10 || c = 13

/-- Skip leading JSON whitespace. -/
def skipWs (s : List Nat) : List Nat :=
  s.dropWhile jsonWs

/-- ASCII decimal digit. -/
def isDigit (c : Nat) : Bool := 48 ≤ c && c ≤ 57

/-- ASCII hex digit. -/
def isHex (c : Nat) : Bool :=
  isDigit c || (65 ≤ c && c ≤ 70) || (97 ≤ c && c ≤ 102)

/-- Consume the remainder of a JSON string after the opening quote,
returning the input following the closing quote. -/
def jsonStringRest : List Nat → Option (List Nat)
  | [] => none
  | 34 :: r => some r
  | 92 :: e :: r =>
    if e = 34 || e = 92 || e = 47 || e = 98 || e = 102 ||
       e = 110 || e = 114 || e = 116 then
      jsonStringRest r
    else if e = 117 then
      match r with
      | h1 :: h2 :: h3 :: h4 :: r2 =>
        if isHex h1 && isHex h2 && isHex h3 && isHex h4 then
          jsonStringRest r2
        else none
      | _ => none
    else none
  | c :: r => if 32 ≤ c && c ≠ 34 && c ≠ 92 then jsonStringRest r else none

/-- Consume one-or-more digits, returning the rest (none if no digit). -/
def jsonDigits1 (s : List Nat) : Option (List Nat) :=
  match s with
  | c :: r => if isDigit c then some (r.dropWhile isDigit) else none
  | [] => none

/-- After the integer part of a JSON number: optional fraction, optional
exponent. -/
def jsonNumberTail (s : List Nat) : Option (List Nat) :=
  let afterFrac :=
    match s with
    | 46 :: r => jsonDigits1 r
    | _ => some s
  match afterFrac with
  | none => none
  | some s2 =>
    match s2 with
    | 101 :: r => jsonDigits1 (match r with | 43 :: r2 => r2 | 45 :: r2 => r2 | _ => r)
    | 69 :: r => jsonDigits1 (match r with | 43 :: r2 => r2 | 45 :: r2 => r2 | _ => r)
    | _ => some s2

/-- Consume a JSON number (after the optional leading minus sign). -/
def jsonNumberBody (s : List Nat) : Option (List Nat) :=
  match s with
  | 48 :: r => jsonNumberTail r
  | c :: r => if 49 ≤ c && c ≤ 57 then jsonNumberTail (r.dropWhile isDigit) else none
  | [] => none

mutual

/-- Consume one JSON value (fuel-bounded recursion). -/
def jsonValue : Nat → List Nat → Option (List Nat)
  | 0, _ => none
  | fuel + 1, s =>
    match skipWs s with
    | [] => none
    | c :: rest =>
      if c = 110 then -- null
        match rest with
        | 117 :: 108 :: 108 :: r => some r
        | _ => none
      else if c = 116 then -- true
        match rest with
        | 114 :: 117 :: 101 :: r => some r
        | _ => none
      else if c = 102 then -- false
        match rest with
        | 97 :: 108 :: 115 :: 101 :: r => some r
        | _ => none
      else if c = 34 then jsonStringRest rest
      else if c = 91 then -- array
        match skipWs rest with
        | 93 :: r => some r
        | _ => jsonElements fuel rest
      else if c = 123 then -- object
        match skipWs rest with
        | 125 :: r => some r
        | _ => jsonMembers fuel rest
      else if c = 45 then jsonNumberBody rest
      else if isDigit c then jsonNumberBody (c :: rest)
      else none

/-- Consume the elements of a non-empty JSON array body up to `]`. -/
def jsonElements : Nat → List Nat → Option (List Nat)
  | 0, _ => none
  | fuel + 1, s =>
    match jsonValue fuel s with
    | none => none
    | some r =>
      match skipWs r with
      | 44 :: r2 => jsonElements fuel r2
      | 93 :: r2 => some r2
      | _ => none

/-- Consume the members of a non-empty JSON object body up to the closing
brace. -/
def jsonMembers : Nat → List Nat → Option (List Nat)
  | 0, _ => none
  | fuel + 1, s =>
    match skipWs s with
    | 34 :: r =>
      match jsonStringRest r with
      | none => none
      | some r2 =>
        match skipWs r2 with
        | 58 :: r3 =>
          match jsonValue fuel r3 with
          | none => none
          | some r4 =>
            match skipWs r4 with
            | 44 :: r5 => jsonMembers fuel r5
            | 125 :: r5 => some r5
            | _ => none
        | _ => none
    | _ => none

end

/-- `JSON.parse` succeeds on the byte sequence `s`. -/
def jsonOkBytes (s : List Nat) : Bool :=
  match jsonValue (2 * s.length + 4) s with
  | some r => (skipWs r).isEmpty
  | none => false

/-! ## `readNsiImage` (lib/image.js)

The reader consumes the file as a sequence of stream chunks, accumulating
them in `buffer`.  Once at least 12 bytes are buffered it validates the
magic, the version, and the declared header length (capped at 10 MiB);
once `12 + headerJsonLen` bytes are buffered it JSON-parses the header
and resolves, handing the already-buffered payload bytes to the inflater
ahead of the chunks still to be read.  Reaching end of stream before the
header is complete is an error. -/

/-- Error outcomes of `readNsiImage` (one constructor per distinct
`handleError` site in lib/image.js). -/
inductive ReadErr where
  | badMagic
  | badVersion
  | headerTooLarge
  | headerJson
  | truncated
  deriving DecidableEq, Repr

/-- Fixed-prefix validation (lib/image.js lines 110–125), meaningful once
the buffer holds at least 12 bytes: check magic, version, and the
10 MiB header-length cap; return the declared header length. -/
def parseFixed (b : List Nat) : Except ReadErr Nat :=
  if b.take 4 ≠ MAGIC then .error .badMagic
  else if readU32BE b 4 ≠ VERSION then .error .badVersion
  else
    let headerJsonLen := readU32BE b 8
    if headerJsonLen > 10 * 1024 * 1024 then .error .headerTooLarge
    else .ok headerJsonLen

/-- The header slice `buffer.slice(12, 12 + len)`. -/
def headerSlice (b : List Nat) (len : Nat) : List Nat :=
  (b.drop 12).take len

/-- Second phase of a `data` event (lib/image.js lines 129–207): once the
declared header length `l` is known, wait for `12 + l` buffered bytes,
then JSON-parse the header slice and resolve. -/
def dataStepJson (b : List Nat) (l : Nat) :
    Except ReadErr (Option Nat ⊕ (List Nat × Nat)) :=
  if b.length ≥ 12 + l then
    if jsonOkBytes (headerSlice b l) then .ok (.inr (headerSlice b l, 12 + l))
    else .error .headerJson
  else .ok (.inl (some l))

/-- One `data` event (lib/image.js lines 104–207): after appending the
chunk to `buffer`, run the fixed parse if not yet done (and at least 12
bytes are buffered), then the JSON header parse.  `hdrInfo` caches the
validated header length.  The result is an error, a resolution carrying
the header bytes and the payload offset, or the updated cache. -/
def dataStep (b : List Nat) (hdrInfo : Option Nat) :
    Except ReadErr (Option Nat ⊕ (List Nat × Nat)) :=
  match hdrInfo with
  | some l => dataStepJson b l
  | none =>
    if b.length ≥ 12 then
      match parseFixed b with
      | .error e => .error e
      | .ok l => dataStepJson b l
    else .ok (.inl none)

/-- Dispatch on the outcome of a `data` event: an error destroys the
stream; a resolution yields the header bytes together with the payload —
the still-buffered bytes past the header fed to the decompressor first,
then the bytes read later (`tail`); otherwise reading continues. -/
def runStep (next : Option Nat → Except ReadErr (List Nat × List Nat))
    (b tail : List Nat) :
    Except ReadErr (Option Nat ⊕ (List Nat × Nat)) →
    Except ReadErr (List Nat × List Nat)
  | .error e => .error e
  | .ok (.inl hi) => next hi
  | .ok (.inr (hdr, off)) => .ok (hdr, b.drop off ++ tail)

/-- Run the reader over the remaining chunks from an intermediate state.
End of stream before resolution is the `Incomplete image file` error. -/
def runChunks : List Nat → Option Nat → List (List Nat) →
    Except ReadErr (List Nat × List Nat)
  | _, _, [] => .error .truncated
  | buffer, hdrInfo, c :: cs =>
    runStep (fun hi => runChunks (buffer ++ c) hi cs) (buffer ++ c) cs.flatten
      (dataStep (buffer ++ c) hdrInfo)

/-- `readNsiImage`, whose file stream delivers the given chunk sequence:
returns the header bytes and the full compressed payload byte sequence
handed to the inflater. -/
def readNsiImage (chunks : List (List Nat)) : Except ReadErr (List Nat × List Nat) :=
  runChunks [] none chunks

/-- The same parse expressed directly on the whole file contents. -/
def readWhole (bytes : List Nat) : Except ReadErr (List Nat × List Nat) :=
  if bytes.length < 12 then .error .truncated
  else
    match parseFixed bytes with
    | .error e => .error e
    | .ok l =>
      if bytes.length < 12 + l then .error .truncated
      else if jsonOkBytes (headerSlice bytes l) then
        .ok (headerSlice bytes l, bytes.drop (12 + l))
      else .error .headerJson

/-! ## `createNsiImage` (lib/image.js lines 16–81): byte assembly

`finalBuffer = MAGIC ++ version ++ headerLen ++ headerBytes ++ compressedPayload`. -/

/-- The byte image assembled by `createNsiImage` from the serialised
header and the compressed payload (lines 52–64). -/
def createNsiImageBytes (headerBytes compressedPayload : List Nat) : List Nat :=
  MAGIC ++ be32enc VERSION ++ be32enc headerBytes.length ++ headerBytes ++ compressedPayload

/-! ## Wait-status handling and outer exit codes (container_launcher.cpp)

Linux `wait` status words, as read by the glibc macros:
`WIFEXITED(s) = ((s & 0x7f) == 0)`, `WEXITSTATUS(s) = ((s >> 8) & 0xff)`,
`WTERMSIG(s) = (s & 0x7f)`, and
`WIFSIGNALED(s) = ((signed char)(((s & 0x7f) + 1) >> 1) > 0)`, which is
true exactly when `0 < (s & 0x7f) < 0x7f`. -/

/-- `WIFEXITED(status)`. -/
def wifexited (status : Nat) : Bool := status % 128 = 0

/-- `WEXITSTATUS(status)`. -/
def wexitstatus (status : Nat) : Nat := status / 256 % 256

/-- `WTERMSIG(status)`. -/
def wtermsig (status : Nat) : Nat := status % 128

/-- `WIFSIGNALED(status)` (the signed-char shift makes it false for
`0` and `0x7f`). -/
def wifsignaled (status : Nat) : Bool :=
  0 < status % 128 && status % 128 < 127

/-- Exit code returned by the legacy launcher's parent
(container_launcher.cpp lines 180–194): the child's exit status on a
normal exit, `128 + signal` on a signalled death, `1` otherwise. -/
def containerLauncherExit (status : Nat) : Nat :=
  if wifexited status then wexitstatus status
  else if wifsignaled status then 128 + wtermsig status
  else 1

/-- Exit code of the `nsi-sandbox` parent branch (main.cpp section,
lines 617–630 of the combined file): `exit(WEXITSTATUS(status))`,
with no `WIFEXITED`/`WIFSIGNALED` discrimination. -/
def nsiSandboxParentExit (status : Nat) : Nat :=
  wexitstatus status

/-- The wait status word of a child that exited normally with status
`k` (`0 ≤ k ≤ 255`). -/
def exitedStatusWord (k : Nat) : Nat := 256 * (k % 256)

/-- The wait status word of a child killed by signal `s`
(`1 ≤ s ≤ 126`, no core-dump flag). -/
def signaledStatusWord (s : Nat) : Nat := s % 128

/-! ## The `nsi-sandbox` success-path stage trace (main.cpp section)

Every syscall-bearing stage of the launcher, in the order the code
performs it when every step succeeds. -/

/-- One observable stage action of the sandbox launcher. -/
inductive LaunchEvent where
  | unshareUser
  | writeSetgroupsDeny
  | writeUidMap
  | writeGidMap
  | unshareOtherNs
  | setHostname
  | forkPid1
  | cgroupMkdirParent
  | cgroupMkdirLeaf
  | cgroupWriteMemMax
  | cgroupWriteProcs
  | mountPrivateRec
  | bindMountRootfs
  | mkdirOldRoot
  | pivotRoot
  | chdirNewRoot
  | umountOldRoot
  | rmdirOldRoot
  | mountProc
  | mountDev
  | mountSys
  | chdirWorkdir
  | execve
  deriving DecidableEq, Repr

/-- `setup_user_namespace_mappings` (main.cpp lines 336–379): deny
setgroups, then write the uid map, then the gid map. -/
def setupUserNamespaceMappings : List LaunchEvent :=
  [.writeSetgroupsDeny, .writeUidMap, .writeGidMap]

/-- `setup_cgroups` (main.cpp lines 381–448): create the parent and leaf
cgroup directories, write `memory.max` when a limit was given, then add
the current PID to `cgroup.procs`. -/
def setupCgroups (hasMemLimit : Bool) : List LaunchEvent :=
  [.cgroupMkdirParent, .cgroupMkdirLeaf] ++
  (if hasMemLimit then [.cgroupWriteMemMax] else []) ++
  [.cgroupWriteProcs]

/-- `setup_filesystem` (main.cpp lines 451–552): private remount, bind
mount of the new root onto itself, old-root directory, `pivot_root`,
`chdir("/")`, lazy unmount and removal of the old root, then the
`/proc`, `/dev`, `/sys` mounts. -/
def setupFilesystem : List LaunchEvent :=
  [.mountPrivateRec, .bindMountRootfs, .mkdirOldRoot, .pivotRoot, .chdirNewRoot,
   .umountOldRoot, .rmdirOldRoot, .mountProc, .mountDev, .mountSys]

/-- The full success-path trace of `main` (main.cpp lines 556–695),
parent and child stages in program order: user namespace, identity maps,
remaining namespaces, hostname, fork, cgroups, filesystem, workdir,
exec. -/
def nsiSandboxSuccessTrace (hasMemLimit : Bool) : List LaunchEvent :=
  [.unshareUser] ++ setupUserNamespaceMappings ++
  [.unshareOtherNs, .setHostname, .forkPid1] ++
  setupCgroups hasMemLimit ++ setupFilesystem ++
  [.chdirWorkdir, .execve]

/-- The stage chain asserted by the ordering claim: user namespace (with
setgroups deny before the gid map), other namespaces, fork, cgroup
installation, pivot (private remount before the bind mount), the three
virtual-filesystem mounts, working directory, exec. -/
def c5ClaimChain : List LaunchEvent :=
  [.unshareUser, .writeSetgroupsDeny, .writeGidMap, .unshareOtherNs, .forkPid1,
   .cgroupMkdirLeaf, .cgroupWriteProcs, .mountPrivateRec, .bindMountRootfs,
   .pivotRoot, .mountProc, .mountDev, .mountSys, .chdirWorkdir, .execve]

/-! ## Filesystem operations performed by the image writers -/

/-- A filesystem operation observable at the path level. -/
inductive FsOp where
  | writeFile (path : String) (contents : List Nat)
  | openWrite (path : String)
  | writeHandle (path : String) (contents : List Nat)
  | closeHandle (path : String)
  | rename (src dst : String)
  deriving DecidableEq, Repr

/-- Whether the operation is a rename. -/
def FsOp.isRename : FsOp → Bool
  | .rename _ _ => true
  | _ => false

/-- The path the operation touches (destination for a rename). -/
def FsOp.target : FsOp → String
  | .writeFile p _ => p
  | .openWrite p => p
  | .writeHandle p _ => p
  | .closeHandle p => p
  | .rename _ d => d

/-- The filesystem operations `createNsiImage` performs to materialise
the image (lib/image.js lines 66–73): one `fs.writeFile` of the fully
assembled buffer, directly at the requested image path. -/
def createNsiImageFsOps (imagePath : String) (finalBuffer : List Nat) : List FsOp :=
  [.writeFile imagePath finalBuffer]

/-- The filesystem operations of the CLI build command's image write
(src/cli/commands/build.js lines 149–156): open the output path for
writing and write magic, version, header length, header and compressed
payload in sequence. -/
def buildCommandFsOps (outputFullPath : String)
    (headerBuffer compressedPayload : List Nat) : List FsOp :=
  [.openWrite outputFullPath,
   .writeHandle outputFullPath MAGIC,
   .writeHandle outputFullPath (be32enc VERSION),
   .writeHandle outputFullPath (be32enc headerBuffer.length),
   .writeHandle outputFullPath headerBuffer,
   .writeHandle outputFullPath compressedPayload,
   .closeHandle outputFullPath]

/-! ## Hash verification in the CLI run command

The run command recomputes the SHA-256 of the decompressed payload and
compares it with the header's `hash` field (run command lines 118–126):
a mismatch is logged as a warning, the commented-out throw is never
taken, and extraction proceeds unconditionally on the same payload. -/

/-- What the hash comparison logs. -/
inductive HashCheckLog where
  | warnMismatch
  | infoVerified
  deriving DecidableEq, Repr

/-- The hash comparison (`if (calculatedHash !== header.hash)`). -/
def verifyHash (calculatedHash headerHash : String) : HashCheckLog :=
  if calculatedHash ≠ headerHash then .warnMismatch else .infoVerified

/-- Hash verification followed by extraction, as the run command's
handler sequences them: the comparison only chooses a log line, and the
payload is then extracted whatever the comparison said. -/
def runHandlerPayloadPhase {α : Type} (calculatedHash headerHash : String)
    (payloadBuffer : List Nat) (extract : List Nat → Except String α) :
    Except String (HashCheckLog × α) :=
  let log := verifyHash calculatedHash headerHash
  match extract payloadBuffer with
  | .error e => .error e
  | .ok r => .ok (log, r)

/-! ## JS object field assignment and the header template mutation -/

/-- JavaScript property assignment `obj[k] = v` on an object modelled as
an ordered association list: an existing key keeps its position and gets
the new value; a new key is appended. -/
def setField {α : Type} : List (String × α) → String → α → List (String × α)
  | [], k, v => [(k, v)]
  | (k', v') :: rest, k, v =>
    if k = k' then (k, v) :: rest else (k', v') :: setField rest k v

/-- Field lookup on the object model. -/
def getField {α : Type} : List (String × α) → String → Option α
  | [], _ => none
  | (k', v') :: rest, k => if k = k' then some v' else getField rest k

/-- Key name constants for the header fields `createNsiImage` assigns. -/
def hashKey : String := "hash"

/-- Key of the `created` field. -/
def createdKey : String := "created"

/-- Key of the `size` field. -/
def sizeKey : String := "size"

/-- The header-object mutation performed by `createNsiImage`
(lib/image.js lines 37, 38 and 47): `headerJson.hash = payloadHash`,
`headerJson.created = ...`, `headerJson.size = compressedPayload.length`,
in that order, on the caller's template; the mutated object is then
serialised into the file. -/
def createNsiImageHeader {α : Type} (headerJson : List (String × α))
    (hashV createdV sizeV : α) : List (String × α) :=
  setField (setField (setField headerJson hashKey hashV) createdKey createdV) sizeKey sizeV

/-- JavaScript object spread `{...base, ...over}`: the entries of `base`
updated (in place) or extended by the entries of `over`. -/
def jsSpread {α : Type} (base over : List (String × α)) : List (String × α) :=
  over.foldl (fun acc p => setField acc p.1 p.2) base

/-- Environment of the command exec'd through the *legacy* path: lib/run.js
(lines 115–126) spawns `container_launcher` with
`env: { ...process.env, ...header.runtime.env }`, and the launcher's
`child_function` calls `execv` (container_launcher.cpp line 92), which
passes the inherited environment on to the container command unchanged. -/
def legacyContainerEnv (callerEnv imageRuntimeEnv : List (String × String)) :
    List (String × String) :=
  jsSpread callerEnv imageRuntimeEnv

/-! ## The `nsi-sandbox` environment assembly (main.cpp section)

The run command passes `--env=KEY=VALUE` for every image `runtime.env`
entry and then for every caller override; `parse_args` splits each at
its first `=` (skipping entries with no `=` or an empty key) into a
`std::map` ordered by key, later writes overwriting earlier ones.  The
child then calls `clearenv()` and builds `envp` from that map alone,
appending a default `PATH` when the map has none, the
`NEOSHELL_CONTAINER=true` marker, and `HOSTNAME=` with the UTS hostname
(the cgroup id truncated to 63 bytes).  The caller's environment is
never consulted. -/

/-- Strings as explicit character lists. -/
abbrev Str := List Char

/-- Byte-wise `std::less<std::string>` comparison. -/
def strLtB : Str → Str → Bool
  | [], [] => false
  | [], _ :: _ => true
  | _ :: _, [] => false
  | a :: as, b :: bs => if a = b then strLtB as bs else decide (a < b)

/-- `std::map` assignment `m[k] = v` on the sorted entry list. -/
def mapSet : List (Str × Str) → Str → Str → List (Str × Str)
  | [], k, v => [(k, v)]
  | (k', v') :: rest, k, v =>
    if k = k' then (k, v) :: rest
    else if strLtB k k' then (k, v) :: (k', v') :: rest
    else (k', v') :: mapSet rest k v

/-- `std::map::find` on the entry list. -/
def mapLookup : List (Str × Str) → Str → Option Str
  | [], _ => none
  | (k', v') :: rest, k => if k = k' then some v' else mapLookup rest k

/-- `parse_args` handling of one `--env` value (main.cpp lines 284–294):
split at the first `=`; entries with no `=` or an empty key are skipped
with a warning. -/
def splitEnv (s : Str) : Option (Str × Str) :=
  let key := s.takeWhile (fun c => !(c = '='))
  match s.dropWhile (fun c => !(c = '=')) with
  | [] => none
  | _ :: v => if key = [] then none else some (key, v)

/-- Accumulate one `--env` argument into the environment map. -/
def envStep (m : List (Str × Str)) (s : Str) : List (Str × Str) :=
  match splitEnv s with
  | some (k, v) => mapSet m k v
  | none => m

/-- The environment map after parsing all `--env` arguments in order. -/
def buildEnvMap (args : List Str) : List (Str × Str) :=
  args.foldl envStep []

/-- `KEY=VALUE` rendering of a map entry (`pair.first + "=" + pair.second`). -/
def encodeEnvPair (p : Str × Str) : Str := p.1 ++ '=' :: p.2

/-- The default `PATH` entry injected when the map has no `PATH` key
(main.cpp lines 666–670). -/
def defaultPATHEntry : Str :=
  ("PATH=/usr/local/sbin:/usr/local/bin:/usr/sbin:/usr/bin:/sbin:/bin").toList

/-- The `PATH` key. -/
def pathKey : Str := ("PATH").toList

/-- The sandbox marker entry (main.cpp line 672). -/
def markerEntry : Str := ("NEOSHELL_CONTAINER=true").toList

/-- The injected `HOSTNAME` entry (main.cpp line 675). -/
def hostnameEntry (hostname : Str) : Str := ("HOSTNAME=").toList ++ hostname

/-- The UTS hostname: the cgroup id truncated to 63 bytes
(main.cpp line 600). -/
def sandboxHostname (cgroupId : Str) : Str := cgroupId.take 63

/-- `envp` assembly from the parsed map (main.cpp lines 655–678): the
map's entries in map order, a default `PATH` if the map lacks one, the
marker, and `HOSTNAME`. -/
def assembleEnvp (m : List (Str × Str)) (hostname : Str) : List Str :=
  m.map encodeEnvPair ++
  (if (mapLookup m pathKey).isNone then [defaultPATHEntry] else []) ++
  [markerEntry, hostnameEntry hostname]

/-- The complete environment handed to `execve` by `nsi-sandbox` when the
run command passes the image `runtime.env` entries and then the caller
overrides: `clearenv()` discards the inherited environment, so the
result is a function of the `--env` arguments and the hostname alone. -/
def nsiSandboxExecEnv (imageEnv overrideEnv : List (Str × Str)) (cgroupId : Str) :
    List Str :=
  assembleEnvp (buildEnvMap ((imageEnv ++ overrideEnv).map encodeEnvPair))
    (sandboxHostname cgroupId)

/-- Last-assignment-wins lookup on an entry list (later entries shadow
earlier ones). -/
def lastVal : List (Str × Str) → Str → Option Str
  | [], _ => none
  | (k', v') :: rest, k =>
    match lastVal rest k with
    | some v => some v
    | none => if k = k' then some v' else none

/-- Last-assignment-wins lookup across raw `--env` argument strings. -/
def lastSet : List Str → Str → Option Str
  | [], _ => none
  | s :: rest, k =>
    match lastSet rest k with
    | some v => some v
    | none =>
      match splitEnv s with
      | some (k', v) => if k = k' then some v else none
      | none => none

/-! ## Composite write → open → extract pipeline (lib/image.js)

`tar-fs` and `zlib` are external libraries; they enter the statements as
function parameters (`pack`/`extractTar`, `deflate`/`inflate`), assumed
where needed to satisfy their inverse contracts. -/

/-- `createNsiImage` at the byte level: tar the source directory,
compress it, assemble the image bytes around the serialised header. -/
def createNsiImageFile {α : Type} (pack : α → List Nat)
    (deflate : List Nat → List Nat) (headerBytes : List Nat) (sourceDir : α) :
    List Nat :=
  createNsiImageBytes headerBytes (deflate (pack sourceDir))

/-- `readNsiImage` followed by `extractNsiPayload`: parse the image,
inflate the compressed payload, and extract the resulting tar stream. -/
def openAndExtract {α : Type} (inflate : List Nat → List Nat)
    (extractTar : List Nat → α) (chunks : List (List Nat)) : Except ReadErr α :=
  match readNsiImage chunks with
  | .error e => .error e
  | .ok (_, compressed) => .ok (extractTar (inflate compressed))

/-! ## Supporting lemmas -/

theorem be32_roundtrip (n : Nat) (h : n < 4294967296) : be32dec (be32enc n) = n := by
  simp only [be32enc, be32dec, List.foldl]
  omega

theorem be32enc_length (n : Nat) : (be32enc n).length = 4 := rfl

theorem readU32BE_append (b t : List Nat) (i : Nat) (h : i + 4 ≤ b.length) :
    readU32BE (b ++ t) i = readU32BE b i := by
  unfold readU32BE
  rw [List.drop_append_of_le_length (by omega),
      List.take_append_of_le_length (by rw [List.length_drop]; omega)]

theorem parseFixed_append (b t : List Nat) (h : 12 ≤ b.length) :
    parseFixed (b ++ t) = parseFixed b := by
  unfold parseFixed
  rw [List.take_append_of_le_length (by omega),
      readU32BE_append b t 4 (by omega), readU32BE_append b t 8 (by omega)]

theorem headerSlice_append (b t : List Nat) (l : Nat) (h : 12 + l ≤ b.length) :
    headerSlice (b ++ t) l = headerSlice b l := by
  unfold headerSlice
  rw [List.drop_append_of_le_length (by omega),
      List.take_append_of_le_length (by rw [List.length_drop]; omega)]

/-- Chunk-fed reading agrees with parsing the whole byte sequence, from
any intermediate reader state consistent with its buffer. -/
theorem runChunks_eq_readWhole (cs : List (List Nat)) :
    ∀ (buffer : List Nat) (hdrInfo : Option Nat),
      (hdrInfo = none → buffer.length < 12) →
      (∀ l, hdrInfo = some l →
        12 ≤ buffer.length ∧ parseFixed buffer = .ok l ∧ buffer.length < 12 + l) →
      runChunks buffer hdrInfo cs = readWhole (buffer ++ cs.flatten) := by
  induction cs with
  | nil =>
    intro buffer hdrInfo hnone hsome
    simp only [runChunks, List.flatten_nil, List.append_nil]
    cases hdrInfo with
    | none =>
      rw [readWhole, if_pos (hnone rfl)]
    | some l =>
      obtain ⟨h1, h2, h3⟩ := hsome l rfl
      rw [readWhole, if_neg (by omega), h2]
      simp only [if_pos (show buffer.length < 12 + l from h3)]
  | cons c cs ih =>
    intro buffer hdrInfo hnone hsome
    have key : ∀ (b : List Nat) (l : Nat), 12 ≤ b.length → parseFixed b = .ok l →
        runStep (fun hi => runChunks b hi cs) b cs.flatten (dataStepJson b l)
        = readWhole (b ++ cs.flatten) := by
      intro b l hb hp
      by_cases hlen : 12 + l ≤ b.length
      · have hlenapp : (b ++ cs.flatten).length = b.length + cs.flatten.length :=
          List.length_append b cs.flatten
        by_cases hj : jsonOkBytes (headerSlice b l)
        · rw [dataStepJson, if_pos (show b.length ≥ 12 + l from hlen), if_pos hj]
          rw [runStep, readWhole, if_neg (by omega), parseFixed_append b cs.flatten hb, hp]
          simp only [if_neg (show ¬ (b ++ cs.flatten).length < 12 + l by omega),
            headerSlice_append b cs.flatten l hlen, if_pos hj,
            List.drop_append_of_le_length (show 12 + l ≤ b.length from hlen)]
        · rw [dataStepJson, if_pos (show b.length ≥ 12 + l from hlen), if_neg hj]
          rw [runStep, readWhole, if_neg (by omega), parseFixed_append b cs.flatten hb, hp]
          simp only [if_neg (show ¬ (b ++ cs.flatten).length < 12 + l by omega),
            headerSlice_append b cs.flatten l hlen, if_neg hj]
      · rw [dataStepJson, if_neg (show ¬ b.length ≥ 12 + l from hlen), runStep]
        exact ih b (some l) (by intro h; cases h)
          (by intro l' hl'; cases hl'; exact ⟨hb, hp, by omega⟩)
    rw [runChunks]
    have hflat : buffer ++ (c :: cs).flatten = (buffer ++ c) ++ cs.flatten := by
      rw [List.flatten_cons, List.append_assoc]
    rw [hflat]
    cases hdrInfo with
    | some l =>
      obtain ⟨h1, h2, h3⟩ := hsome l rfl
      have hb : 12 ≤ (buffer ++ c).length := by
        rw [List.length_append]; omega
      have hp : parseFixed (buffer ++ c) = .ok l := by
        rw [parseFixed_append buffer c h1, h2]
      rw [show dataStep (buffer ++ c) (some l) = dataStepJson (buffer ++ c) l from rfl]
      exact key (buffer ++ c) l hb hp
    | none =>
      have h0 : buffer.length < 12 := hnone rfl
      by_cases hb : 12 ≤ (buffer ++ c).length
      · rw [dataStep]
        rw [if_pos (show (buffer ++ c).length ≥ 12 from hb)]
        cases hp : parseFixed (buffer ++ c) with
        | error e =>
          rw [runStep, readWhole,
            if_neg (by simp only [List.length_append] at hb ⊢; omega),
            parseFixed_append (buffer ++ c) cs.flatten hb, hp]
        | ok l =>
          exact key (buffer ++ c) l hb hp
      · rw [dataStep, if_neg (show ¬ (buffer ++ c).length ≥ 12 from hb), runStep]
        exact ih (buffer ++ c) none (fun _ => by omega) (fun l' hl' => by cases hl')

/-- Feeding the file as stream chunks is equivalent to parsing the whole
byte sequence. -/
theorem readNsiImage_eq_readWhole (chunks : List (List Nat)) :
    readNsiImage chunks = readWhole chunks.flatten :=
  runChunks_eq_readWhole chunks [] none (fun _ => by simp) (fun l h => by cases h)

/-- The fixed-prefix parse depends only on the first 12 bytes. -/
theorem parseFixed_take12 (b : List Nat) :
    parseFixed (b.take 12) = parseFixed b := by
  unfold parseFixed readU32BE
  rw [List.take_take, List.drop_take, List.drop_take,
      List.take_take, List.take_take]
  norm_num

/-- Opening the bytes assembled by `createNsiImage` recovers the header
bytes and the compressed payload exactly. -/
theorem readWhole_createNsiImageBytes (hdr payload : List Nat)
    (hjson : jsonOkBytes hdr = true)
    (hlen : hdr.length ≤ 10 * 1024 * 1024) :
    readWhole (createNsiImageBytes hdr payload) = .ok (hdr, payload) := by
  have hmagic4 : MAGIC.length = 4 := rfl
  have h8 : (MAGIC ++ be32enc VERSION).length = 8 := rfl
  have hfix : (MAGIC ++ be32enc VERSION ++ be32enc hdr.length).length = 12 := by
    simp [List.length_append, hmagic4, be32enc_length]
  have hbytes : createNsiImageBytes hdr payload =
      ((MAGIC ++ be32enc VERSION ++ be32enc hdr.length) ++ hdr) ++ payload := rfl
  have hlen32 : hdr.length < 4294967296 := by omega
  have h12h : ((MAGIC ++ be32enc VERSION ++ be32enc hdr.length) ++ hdr).length
      = 12 + hdr.length := by rw [List.length_append, hfix]
  have htot : (createNsiImageBytes hdr payload).length =
      12 + hdr.length + payload.length := by
    rw [hbytes, List.length_append, h12h]
  have hpf : parseFixed (createNsiImageBytes hdr payload) = .ok hdr.length := by
    unfold parseFixed
    have h4 : (createNsiImageBytes hdr payload).take 4 = MAGIC := by
      rw [hbytes, List.take_append_of_le_length (by omega),
        List.take_append_of_le_length (by omega),
        show MAGIC ++ be32enc VERSION ++ be32enc hdr.length
          = MAGIC ++ (be32enc VERSION ++ be32enc hdr.length) from List.append_assoc .. ,
        List.take_left' hmagic4]
    have hv : readU32BE (createNsiImageBytes hdr payload) 4 = VERSION := by
      rw [hbytes, readU32BE_append _ payload 4 (by rw [h12h]; omega),
        readU32BE_append _ hdr 4 (by rw [hfix]; omega),
        readU32BE_append _ (be32enc hdr.length) 4 (by rw [h8])]
      decide
    have hl : readU32BE (createNsiImageBytes hdr payload) 8 = hdr.length := by
      rw [hbytes, readU32BE_append _ payload 8 (by rw [h12h]; omega),
        readU32BE_append _ hdr 8 (by rw [hfix]),
        readU32BE, List.drop_left' h8, ← be32enc_length hdr.length, List.take_length]
      exact be32_roundtrip hdr.length hlen32
    rw [h4, hv, hl, if_neg (by simp), if_neg (by simp [VERSION]), if_neg (by omega)]
  have hdrop12 : (createNsiImageBytes hdr payload).drop 12 = hdr ++ payload := by
    rw [hbytes, List.append_assoc, List.drop_left' hfix]
  have hslice : headerSlice (createNsiImageBytes hdr payload) hdr.length = hdr := by
    rw [headerSlice, hdrop12, List.take_left]
  have hdroppayload :
      (createNsiImageBytes hdr payload).drop (12 + hdr.length) = payload := by
    rw [hbytes, List.drop_left' h12h]
  rw [readWhole, if_neg (by omega), hpf]
  show (if (createNsiImageBytes hdr payload).length < 12 + hdr.length then
      Except.error ReadErr.truncated
    else if jsonOkBytes (headerSlice (createNsiImageBytes hdr payload) hdr.length) = true then
      Except.ok (headerSlice (createNsiImageBytes hdr payload) hdr.length,
        (createNsiImageBytes hdr payload).drop (12 + hdr.length))
    else Except.error ReadErr.headerJson) = Except.ok (hdr, payload)
  rw [if_neg (by omega), hslice, if_pos hjson, hdroppayload]

/-! ### Association-list lemmas for environments and header objects -/

theorem getField_setField {α : Type} (m : List (String × α)) (k : String) (v : α)
    (k' : String) :
    getField (setField m k v) k' = if k' = k then some v else getField m k' := by
  induction m with
  | nil =>
    by_cases h : k' = k <;> simp [setField, getField, h]
  | cons p rest ih =>
    obtain ⟨k0, v0⟩ := p
    simp only [setField]
    by_cases h1 : k = k0
    · subst h1
      rw [if_pos rfl]
      by_cases h2 : k' = k <;> simp [getField, h2]
    · rw [if_neg h1]
      by_cases h2 : k' = k0
      · subst h2
        have hne : ¬ k' = k := fun h => h1 h.symm
        simp [getField, hne]
      · simp [getField, h2, ih]

theorem mapLookup_mapSet (m : List (Str × Str)) (k v : Str) (k' : Str) :
    mapLookup (mapSet m k v) k' = if k' = k then some v else mapLookup m k' := by
  induction m with
  | nil =>
    by_cases h : k' = k <;> simp [mapSet, mapLookup, h]
  | cons p rest ih =>
    obtain ⟨k0, v0⟩ := p
    simp only [mapSet]
    by_cases h1 : k = k0
    · subst h1
      rw [if_pos rfl]
      by_cases h2 : k' = k <;> simp [mapLookup, h2]
    · rw [if_neg h1]
      by_cases hlt : strLtB k k0
      · rw [if_pos hlt]
        by_cases h2 : k' = k <;> simp [mapLookup, h2]
      · rw [if_neg hlt]
        by_cases h2 : k' = k0
        · subst h2
          have hne : ¬ k' = k := fun h => h1 h.symm
          simp [mapLookup, hne]
        · simp [mapLookup, h2, ih]

theorem mapLookup_foldl_envStep (args : List Str) :
    ∀ (m : List (Str × Str)) (k : Str),
      mapLookup (args.foldl envStep m) k =
        match lastSet args k with
        | some v => some v
        | none => mapLookup m k := by
  induction args with
  | nil => intro m k; simp [lastSet]
  | cons s rest ih =>
    intro m k
    rw [List.foldl_cons, ih, lastSet]
    cases hls : lastSet rest k with
    | some v => rfl
    | none =>
      simp only [envStep]
      cases hsp : splitEnv s with
      | none => rfl
      | some kv =>
        obtain ⟨k0, v0⟩ := kv
        rw [mapLookup_mapSet]
        by_cases h : k = k0
        · subst h; simp
        · have hne : ¬ k0 = k := fun hh => h hh.symm
          simp [h, hne]

theorem takeWhile_append_of_all {α : Type} (p : α → Bool) (l t : List α)
    (h : ∀ c ∈ l, p c = true) :
    (l ++ t).takeWhile p = l ++ t.takeWhile p := by
  induction l with
  | nil => simp
  | cons c cs ih =>
    rw [List.cons_append, List.takeWhile_cons, if_pos (h c (by simp)),
      ih (fun c' hc' => h c' (by simp [hc']))]
    rfl

theorem dropWhile_append_of_all {α : Type} (p : α → Bool) (l t : List α)
    (h : ∀ c ∈ l, p c = true) :
    (l ++ t).dropWhile p = t.dropWhile p := by
  induction l with
  | nil => simp
  | cons c cs ih =>
    rw [List.cons_append, List.dropWhile_cons, if_pos (h c (by simp))]
    exact ih (fun c' hc' => h c' (by simp [hc']))

theorem splitEnv_encode (k v : Str) (hk : k ≠ []) (he : '=' ∉ k) :
    splitEnv (encodeEnvPair (k, v)) = some (k, v) := by
  have hall : ∀ c ∈ k, (!(c = '=')) = true := by
    intro c hc
    simp only [Bool.not_eq_true']
    exact decide_eq_false (fun h => he (h ▸ hc))
  unfold splitEnv encodeEnvPair
  rw [takeWhile_append_of_all _ k ('=' :: v) hall,
    dropWhile_append_of_all _ k ('=' :: v) hall]
  simp [List.takeWhile_cons, List.dropWhile_cons, hk]

theorem lastSet_map_encode (l : List (Str × Str)) (k : Str)
    (hwf : ∀ p ∈ l, p.1 ≠ [] ∧ '=' ∉ p.1) :
    lastSet (l.map encodeEnvPair) k = lastVal l k := by
  induction l with
  | nil => rfl
  | cons p rest ih =>
    obtain ⟨k0, v0⟩ := p
    rw [List.map_cons, lastSet, lastVal, ih (fun q hq => hwf q (by simp [hq]))]
    cases lastVal rest k with
    | some v => rfl
    | none =>
      obtain ⟨h1, h2⟩ := hwf (k0, v0) (by simp)
      rw [splitEnv_encode k0 v0 h1 h2]

theorem lastVal_append (a b : List (Str × Str)) (k : Str) :
    lastVal (a ++ b) k =
      match lastVal b k with
      | some v => some v
      | none => lastVal a k := by
  induction a with
  | nil => cases h : lastVal b k <;> simp [lastVal, h]
  | cons p rest ih =>
    rw [List.cons_append, lastVal, ih, lastVal]
    cases lastVal b k <;> cases lastVal rest k <;> rfl

/-! ## Claim theorems -/

/-- C1 (code-bug exhibit): for a child killed by signal 15 (SIGTERM, wait
status word 15) the legacy launcher's parent exits with `128 + 15 = 143`
as the claim states, but the `nsi-sandbox` parent — which calls
`exit(WEXITSTATUS(status))` without testing `WIFSIGNALED` — exits with
`0`.  On a normal exit (status 7 shown) both propagate the status. -/
theorem c1_signalled_child_exit_codes :
    wifsignaled (signaledStatusWord 15) = true ∧
    wifexited (signaledStatusWord 15) = false ∧
    containerLauncherExit (signaledStatusWord 15) = 143 ∧
    nsiSandboxParentExit (signaledStatusWord 15) = 0 ∧
    containerLauncherExit (exitedStatusWord 7) = 7 ∧
    nsiSandboxParentExit (exitedStatusWord 7) = 7 := by
  decide

/-- C3 (counterexample): a file with valid magic and version whose
declared header length is 1 — below the claimed minimum of 2 — is
accepted by `readNsiImage` with header byte `"1"` (which JSON-parses),
not rejected with a `FormatError`. -/
theorem c3_counterexample :
    readNsiImage [[78, 83, 73, 33, 0, 0, 0, 1, 0, 0, 0, 1, 49]]
      = .ok ([49], []) := rfl

/-- C3 (amended): once 12 bytes are available, `readNsiImage` (as
`readWhole`) rejects a wrong magic, a version other than 1, and a
declared header length above 10 MiB — the oversized rejection follows
from the fixed 12-byte prefix alone, whatever bytes follow, hence before
any header bytes are read.  No `≥ 2` lower bound on the header length is
enforced (see the counterexample). -/
theorem c3_amended (bytes : List Nat) (h12 : 12 ≤ bytes.length) :
    (bytes.take 4 ≠ MAGIC → readWhole bytes = .error .badMagic) ∧
    (bytes.take 4 = MAGIC → readU32BE bytes 4 ≠ VERSION →
      readWhole bytes = .error .badVersion) ∧
    (bytes.take 4 = MAGIC → readU32BE bytes 4 = VERSION →
      10 * 1024 * 1024 < readU32BE bytes 8 →
      ∀ rest, readWhole (bytes.take 12 ++ rest) = .error .headerTooLarge) := by
  refine ⟨?_, ?_, ?_⟩
  · intro hm
    have hp : parseFixed bytes = .error .badMagic := by
      rw [parseFixed, if_pos hm]
    rw [readWhole, if_neg (by omega), hp]
  · intro hm hv
    have hp : parseFixed bytes = .error .badVersion := by
      rw [parseFixed, if_neg (fun hh => hh hm), if_pos hv]
    rw [readWhole, if_neg (by omega), hp]
  · intro hm hv hl rest
    have hp : parseFixed bytes = .error .headerTooLarge := by
      rw [parseFixed, if_neg (fun hh => hh hm), if_neg (fun hh => hh hv),
        if_pos (by omega)]
    have hpt : parseFixed (bytes.take 12 ++ rest) = .error .headerTooLarge := by
      rw [parseFixed_append _ _ (by rw [List.length_take]; omega),
        parseFixed_take12, hp]
    rw [readWhole, if_neg (by rw [List.length_append, List.length_take]; omega), hpt]

/-- C3 (amended) witness: concrete rejections on all three branches. -/
theorem c3_amended_witness :
    readWhole (List.replicate 64 0) = .error .badMagic ∧
    readWhole [78, 83, 73, 33, 0, 0, 0, 2, 0, 0, 0, 1, 49] = .error .badVersion ∧
    readWhole ((List.take 12 [78, 83, 73, 33, 0, 0, 0, 1, 255, 255, 255, 255]) ++ [49])
      = .error .headerTooLarge :=
  ⟨(c3_amended (List.replicate 64 0) (by decide)).1 (by decide),
   (c3_amended [78, 83, 73, 33, 0, 0, 0, 2, 0, 0, 0, 1, 49] (by decide)).2.1
     (by decide) (by decide),
   (c3_amended [78, 83, 73, 33, 0, 0, 0, 1, 255, 255, 255, 255] (by decide)).2.2
     (by decide) (by decide) (by decide) [49]⟩

/-- C4 (counterexample): on the legacy path — lib/run.js spawning
`container_launcher`, whose child runs `execv` — a caller environment
variable that was not passed as an override reaches the exec'd command:
with caller environment `FOO=bar` and an empty image `runtime.env`, the
command's environment is exactly `FOO=bar`. -/
theorem c4_counterexample :
    legacyContainerEnv [("FOO", "bar")] [] = [("FOO", "bar")] ∧
    getField (legacyContainerEnv [("FOO", "bar")] []) ("FOO") = some "bar" := by
  exact ⟨rfl, rfl⟩

/-- C4 (amended): for the `nsi-sandbox` launcher the claim holds — the
parsed environment map is exactly the image `runtime.env` overlaid by
the caller overrides with the caller winning on conflict, and the
`envp` handed to `execve` is exactly that map, plus the default `PATH`
when the map has none, plus the `NEOSHELL_CONTAINER=true` marker and
`HOSTNAME`; nothing of the caller's environment enters (`clearenv` plus
an explicit `envp`: the definition takes no caller environment at all).
The legacy lib/run.js path, by contrast, passes the caller's environment
through (see the counterexample). -/
theorem c4_amended (imageEnv overrideEnv : List (Str × Str)) (cgroupId : Str)
    (himg : ∀ p ∈ imageEnv, p.1 ≠ [] ∧ '=' ∉ p.1)
    (hovr : ∀ p ∈ overrideEnv, p.1 ≠ [] ∧ '=' ∉ p.1) :
    (∀ k, mapLookup (buildEnvMap ((imageEnv ++ overrideEnv).map encodeEnvPair)) k =
      match lastVal overrideEnv k with
      | some v => some v
      | none => lastVal imageEnv k) ∧
    nsiSandboxExecEnv imageEnv overrideEnv cgroupId =
      (buildEnvMap ((imageEnv ++ overrideEnv).map encodeEnvPair)).map encodeEnvPair ++
      (if (mapLookup (buildEnvMap ((imageEnv ++ overrideEnv).map encodeEnvPair))
            pathKey).isNone
        then [defaultPATHEntry] else []) ++
      [markerEntry, hostnameEntry (sandboxHostname cgroupId)] := by
  constructor
  · intro k
    have hwf : ∀ p ∈ imageEnv ++ overrideEnv, p.1 ≠ [] ∧ '=' ∉ p.1 := by
      intro p hp
      rcases List.mem_append.mp hp with h | h
      exacts [himg p h, hovr p h]
    rw [buildEnvMap, mapLookup_foldl_envStep, lastSet_map_encode _ _ hwf,
      lastVal_append]
    cases lastVal overrideEnv k <;> cases lastVal imageEnv k <;> rfl
  · rfl

/-- C4 (amended) witness: with image env `A=1` and override `A=2`, the
map holds `A=2` (the caller override wins). -/
theorem c4_amended_witness :
    mapLookup (buildEnvMap ((([(['A'], ['1'])] ++ [(['A'], ['2'])]).map
      encodeEnvPair))) ['A'] = some ['2'] := by
  have h := (c4_amended [(['A'], ['1'])] [(['A'], ['2'])] ['h']
    (by decide) (by decide)).1 ['A']
  rw [h]
  decide

/-- C5: on the success path, for either setting of the memory limit, the
sandbox performs the claimed stage chain in exactly the claimed order —
user namespace (setgroups deny written before the gid map), the other
namespaces, fork, cgroup installation, pivot (private remount before the
bind mount), the `/proc`, `/dev`, `/sys` mounts, working directory,
exec — and performs each of these stages exactly once. -/
theorem c5_stage_order (hasMemLimit : Bool) :
    c5ClaimChain.Sublist (nsiSandboxSuccessTrace hasMemLimit) ∧
    ∀ e ∈ c5ClaimChain, (nsiSandboxSuccessTrace hasMemLimit).count e = 1 := by
  cases hasMemLimit <;> exact ⟨by decide, by decide⟩

/-- C5 witness: the chain is realised with a memory limit present, and
the pivot stage occurs exactly once there. -/
theorem c5_stage_order_witness :
    c5ClaimChain.Sublist (nsiSandboxSuccessTrace true) ∧
    (nsiSandboxSuccessTrace true).count .pivotRoot = 1 :=
  ⟨(c5_stage_order true).1, (c5_stage_order true).2 .pivotRoot (by decide)⟩

/-- C6: writing an image from a source directory and then opening and
extracting it returns the source directory exactly, for any tar packer
and extractor and any compressor and decompressor satisfying their
inverse contracts (tar-fs and zlib are external libraries; the
repository's own framing is proved to preserve the payload exactly). -/
theorem c6_roundtrip {α : Type} (pack : α → List Nat) (extractTar : List Nat → α)
    (deflate inflate : List Nat → List Nat) (sourceDir : α) (headerBytes : List Nat)
    (hzlib : inflate (deflate (pack sourceDir)) = pack sourceDir)
    (htar : extractTar (pack sourceDir) = sourceDir)
    (hjson : jsonOkBytes headerBytes = true)
    (hlen : headerBytes.length ≤ 10 * 1024 * 1024) :
    openAndExtract inflate extractTar
      [createNsiImageFile pack deflate headerBytes sourceDir] = .ok sourceDir := by
  unfold openAndExtract
  rw [readNsiImage_eq_readWhole]
  rw [show ([createNsiImageFile pack deflate headerBytes sourceDir] :
      List (List Nat)).flatten = createNsiImageFile pack deflate headerBytes sourceDir by
    simp]
  rw [createNsiImageFile, readWhole_createNsiImageBytes _ _ hjson hlen]
  show Except.ok (extractTar (inflate (deflate (pack sourceDir)))) = .ok sourceDir
  rw [hzlib, htar]

/-- C6 witness: a concrete round trip with identity codecs. -/
theorem c6_roundtrip_witness :
    openAndExtract (fun l => l) (fun l => l)
      [createNsiImageFile (fun l => l) (fun l => l) [123, 125] [1, 2, 3]]
      = .ok [1, 2, 3] :=
  c6_roundtrip (fun l => l) (fun l => l) (fun l => l) (fun l => l) [1, 2, 3]
    [123, 125] rfl rfl (by decide) (by decide)

/-- C7 (counterexample): at a concrete path and payload, the write trace
of `createNsiImage` is a single direct `fs.writeFile` at the final image
path — no temporary file and no rename — contradicting the claimed
write-temp-then-rename mechanism. -/
theorem c7_counterexample :
    createNsiImageFsOps ("app-0.1.nsi") [1, 2, 3]
      = [.writeFile ("app-0.1.nsi") [1, 2, 3]] ∧
    ((createNsiImageFsOps ("app-0.1.nsi") [1, 2, 3]).all
      fun op => !op.isRename && (op.target == "app-0.1.nsi")) = true := by
  exact ⟨rfl, by decide⟩

/-- C7 (amended): neither image writer is atomic — `createNsiImage`
performs exactly one direct `fs.writeFile` at the final path, and the
CLI build command writes the image parts sequentially to a handle opened
on the final path; neither trace contains a rename or touches another
path, so an interrupted write can leave a partially written file at the
final name. -/
theorem c7_amended (p : String) (buf hdrB payload : List Nat) :
    createNsiImageFsOps p buf = [.writeFile p buf] ∧
    (∀ op ∈ createNsiImageFsOps p buf, op.isRename = false ∧ op.target = p) ∧
    (∀ op ∈ buildCommandFsOps p hdrB payload, op.isRename = false ∧ op.target = p) := by
  refine ⟨rfl, ?_, ?_⟩
  · intro op hop
    rw [createNsiImageFsOps, List.mem_singleton] at hop
    subst hop
    exact ⟨rfl, rfl⟩
  · intro op hop
    simp only [buildCommandFsOps, List.mem_cons, List.not_mem_nil, or_false] at hop
    rcases hop with rfl | rfl | rfl | rfl | rfl | rfl | rfl <;> exact ⟨rfl, rfl⟩

/-- C7 (amended) witness: concrete instance of both trace facts. -/
theorem c7_amended_witness :
    createNsiImageFsOps ("h-0.1.nsi") [9] = [.writeFile ("h-0.1.nsi") [9]] ∧
    FsOp.isRename (.openWrite ("h-0.1.nsi")) = false :=
  ⟨(c7_amended ("h-0.1.nsi") [9] [] []).1,
   ((c7_amended ("h-0.1.nsi") [9] [] []).2.2 (.openWrite ("h-0.1.nsi"))
     (by simp [buildCommandFsOps])).1⟩

/-- C8: when the recomputed payload hash differs from the header's
`hash`, the run handler only logs the mismatch warning — the phase
returns exactly the extraction outcome tagged with the warning, and the
extracted result is identical to the matching-hash case; the comparison
never causes a failure. -/
theorem c8_hash_mismatch_warns {α : Type} (calculatedHash headerHash : String)
    (payloadBuffer : List Nat) (extract : List Nat → Except String α)
    (hne : calculatedHash ≠ headerHash) :
    runHandlerPayloadPhase calculatedHash headerHash payloadBuffer extract
      = (extract payloadBuffer).map (fun r => (HashCheckLog.warnMismatch, r)) ∧
    (runHandlerPayloadPhase calculatedHash headerHash payloadBuffer extract).map
        Prod.snd
      = (runHandlerPayloadPhase headerHash headerHash payloadBuffer extract).map
        Prod.snd := by
  unfold runHandlerPayloadPhase verifyHash
  rw [if_pos hne]
  cases extract payloadBuffer <;> simp [Except.map]

/-- C8 witness: a concrete mismatch extracting successfully with only a
warning. -/
theorem c8_hash_mismatch_warns_witness :
    runHandlerPayloadPhase ("aa") ("bb") [1]
      (fun l => (Except.ok l.length : Except String Nat))
      = .ok (.warnMismatch, 1) := by
  have h := (c8_hash_mismatch_warns ("aa") ("bb") [1]
    (fun l => (Except.ok l.length : Except String Nat)) (by decide)).1
  rw [h]
  rfl

/-- C9: `readNsiImage` is deterministic with respect to stream chunking —
for every partition of the file bytes into chunks it returns the same
parsed header and the same byte sequence handed to the decompressor as
parsing the whole file at once (the payload bytes buffered during header
parsing are fed ahead of the bytes read later, as `runChunks` shows). -/
theorem c9_chunking_deterministic (chunks : List (List Nat)) :
    readNsiImage chunks = readWhole chunks.flatten :=
  readNsiImage_eq_readWhole chunks

/-- C10: `createNsiImage` sets exactly the `hash`, `created` and `size`
fields on the caller's header template (the mutated template is the
object serialised into the file), and every other field keeps the value
the template had. -/
theorem c10_header_mutation {α : Type} (tpl : List (String × α)) (h c s : α) :
    getField (createNsiImageHeader tpl h c s) hashKey = some h ∧
    getField (createNsiImageHeader tpl h c s) createdKey = some c ∧
    getField (createNsiImageHeader tpl h c s) sizeKey = some s ∧
    ∀ k, k ≠ hashKey → k ≠ createdKey → k ≠ sizeKey →
      getField (createNsiImageHeader tpl h c s) k = getField tpl k := by
  unfold createNsiImageHeader
  refine ⟨?_, ?_, ?_, ?_⟩
  · rw [getField_setField, if_neg (by decide), getField_setField, if_neg (by decide),
      getField_setField, if_pos rfl]
  · rw [getField_setField, if_neg (by decide), getField_setField, if_pos rfl]
  · rw [getField_setField, if_pos rfl]
  · intro k h1 h2 h3
    rw [getField_setField, if_neg h3, getField_setField, if_neg h2,
      getField_setField, if_neg h1]

/-- C10 witness: a concrete template keeps its `imageName` field and
receives the assigned `hash`. -/
theorem c10_header_mutation_witness :
    getField (createNsiImageHeader [("imageName", (5 : Nat))] 1 2 3) ("imageName")
      = some 5 ∧
    getField (createNsiImageHeader [("imageName", (5 : Nat))] 1 2 3) hashKey
      = some 1 := by
  have h := c10_header_mutation [("imageName", (5 : Nat))] 1 2 3
  exact ⟨by rw [h.2.2.2 ("imageName") (by decide) (by decide) (by decide)]; rfl, h.1⟩

end Neoshell
